import Mathlib

/-!
Verification of the generator-model, Lindblad-model and solver layers of the
qiskit-ode repository, as a shallow embedding in Lean 4.

Matrices over the complex numbers stand for the numpy arrays of the source;
floating-point arithmetic is modelled exactly.  The components of the
repository that are not part of the provided sources (the `Frame` /
`RotatingFrame` class, the operator collections, and `SignalList`) are
modelled from the specification and are marked as such in their doc comments.
The scalar exponential that the source evaluates numerically (`np.exp`) is
kept as an explicit function parameter `expf` of the evaluation functions:
every theorem below is quantified over it, so the statements in particular
cover the true complex exponential.
-/

open Matrix

/-- The conjugate transpose, written with the computable complex conjugation
`starRingEnd`; it agrees with Mathlib's `conjTranspose` (see
`dagger_eq_conjTranspose`). -/
def dagger {I : Type} (A : Matrix I I ℂ) : Matrix I I ℂ :=
  (A.map (starRingEnd ℂ))ᵀ


/-- A signal, modelled from the spec: a complex-valued scalar function of
time (carrier-frequency bookkeeping is irrelevant to the claims below, and
`SignalList` evaluation at `t` is the list of the member signals at `t`). -/
abbrev Sig : Type := ℝ → ℂ

/-- Modelled from the spec (frame.py / rotating_frame.py are not part of the
provided sources): the data of a non-trivial frame, namely the derived
diagonal decomposition of the anti-Hermitian frame operator
`F = frame_basis * diagonal frame_diag * frame_basisᴴ`.  A `Frame` whose
`frame_diag` is `None` is represented as `none : Option (FrameData n)`. -/
structure FrameData (n : ℕ) where
  frame_diag : Fin n → ℂ
  frame_basis : Matrix (Fin n) (Fin n) ℂ

/-- Modelled from the spec: `operator_into_frame_basis` conjugates an
operator into the basis in which the frame operator is diagonal; the
identity when no frame is set. -/
noncomputable def operator_into_frame_basis {n : ℕ} (f : Option (FrameData n))
    (A : Matrix (Fin n) (Fin n) ℂ) : Matrix (Fin n) (Fin n) ℂ :=
  match f with
  | none => A
  | some fd => dagger fd.frame_basis * A * fd.frame_basis

/-- Modelled from the spec: `operator_out_of_frame_basis`, the inverse
conjugation of `operator_into_frame_basis`. -/
noncomputable def operator_out_of_frame_basis {n : ℕ} (f : Option (FrameData n))
    (A : Matrix (Fin n) (Fin n) ℂ) : Matrix (Fin n) (Fin n) ℂ :=
  match f with
  | none => A
  | some fd => fd.frame_basis * A * dagger fd.frame_basis

/-- Modelled from the spec: `operator_into_frame t op` applies
`exp (-tF) * op * exp (tF)`, computed in the diagonal basis by phase
multiplication; the two boolean flags say whether the input already is in
the frame basis and whether the result is to be returned in it. -/
noncomputable def operator_into_frame {n : ℕ} (f : Option (FrameData n)) (expf : ℂ → ℂ)
    (t : ℝ) (A : Matrix (Fin n) (Fin n) ℂ)
    (operator_in_frame_basis return_in_frame_basis : Bool) :
    Matrix (Fin n) (Fin n) ℂ :=
  match f with
  | none => A
  | some fd =>
    let Ab := if operator_in_frame_basis then A else
      dagger fd.frame_basis * A * fd.frame_basis
    let Ar := Matrix.diagonal (fun i => expf (-(t * fd.frame_diag i))) * Ab *
      Matrix.diagonal (fun i => expf (t * fd.frame_diag i))
    if return_in_frame_basis then Ar else fd.frame_basis * Ar * dagger fd.frame_basis

/-- Modelled from the spec: `state_out_of_frame t y` applies `exp (tF)` to a
state vector by element-wise phase multiplication in the diagonal basis. -/
noncomputable def state_out_of_frame {n : ℕ} (f : Option (FrameData n)) (expf : ℂ → ℂ)
    (t : ℝ) (y : Fin n → ℂ) (y_in_frame_basis return_in_frame_basis : Bool) :
    Fin n → ℂ :=
  match f with
  | none => y
  | some fd =>
    let yb := if y_in_frame_basis then y else (dagger fd.frame_basis).mulVec y
    let yr := (Matrix.diagonal (fun i => expf (t * fd.frame_diag i))).mulVec yb
    if return_in_frame_basis then yr else fd.frame_basis.mulVec yr

/-- Modelled from the spec: `state_into_frame t y` applies `exp (-tF)` to a
state vector by element-wise phase multiplication in the diagonal basis. -/
noncomputable def state_into_frame {n : ℕ} (f : Option (FrameData n)) (expf : ℂ → ℂ)
    (t : ℝ) (y : Fin n → ℂ) (y_in_frame_basis return_in_frame_basis : Bool) :
    Fin n → ℂ :=
  match f with
  | none => y
  | some fd =>
    let yb := if y_in_frame_basis then y else (dagger fd.frame_basis).mulVec y
    let yr := (Matrix.diagonal (fun i => expf (-(t * fd.frame_diag i)))).mulVec yb
    if return_in_frame_basis then yr else fd.frame_basis.mulVec yr

/-- The matrix `diagonal frame_diag` subtracted from the drift by
`GeneratorModel.frame` (zero when no frame is set). -/
def frame_diag_matrix {n : ℕ} (f : Option (FrameData n)) :
    Matrix (Fin n) (Fin n) ℂ :=
  match f with
  | none => 0
  | some fd => Matrix.diagonal fd.frame_diag

/-- The matrix `diagonal (1j * frame_diag)` subtracted from the drift by
`LindbladModel.frame` (zero when no frame is set). -/
def frame_diag_matrix_i {n : ℕ} (f : Option (FrameData n)) :
    Matrix (Fin n) (Fin n) ℂ :=
  match f with
  | none => 0
  | some fd => Matrix.diagonal (fun i => Complex.I * fd.frame_diag i)

/-- The frame basis is unitary (trivially true when no frame is set); the
spec guarantees this for the eigendecomposition of an anti-Hermitian frame
operator. -/
def frame_unitary {n : ℕ} (f : Option (FrameData n)) : Prop :=
  match f with
  | none => True
  | some fd => fd.frame_basis * dagger fd.frame_basis = 1

/-- Modelled from the spec (operator_collections.py is not part of the
provided sources): a `DenseOperatorCollection` owns the operator list and a
drift term, and when called with a coefficient list returns
`drift + Σ_i coeff_i * operator_i`. -/
structure DenseOperatorCollection (n : ℕ) where
  operators : List (Matrix (Fin n) (Fin n) ℂ)
  drift : Matrix (Fin n) (Fin n) ℂ

/-- Modelled from the spec: the number of operators of the collection. -/
def DenseOperatorCollection.num_operators {n : ℕ}
    (c : DenseOperatorCollection n) : ℕ :=
  c.operators.length

/-- Modelled from the spec: calling the collection with coefficient values
returns the time-independent linear combination `drift + Σ_i c_i G_i`. -/
def DenseOperatorCollection.call {n : ℕ} (c : DenseOperatorCollection n)
    (coeffs : List ℂ) : Matrix (Fin n) (Fin n) ℂ :=
  c.drift + (List.zipWith (· • ·) coeffs c.operators).sum

/-- The state of a `GeneratorModel` (generator_models.py): internally stored
operators and drift (kept in the frame basis), the optional signals, the
frame (`none` standing for a `Frame` with `frame_diag is None`), the
evaluation mode string, and the operator collection, which is `none` until
a supported evaluation mode has been set (`_operator_collection = None`). -/
structure GeneratorModel (n : ℕ) where
  operators : List (Matrix (Fin n) (Fin n) ℂ)
  drift : Matrix (Fin n) (Fin n) ℂ
  signals : Option (List Sig)
  frame : Option (FrameData n)
  evaluation_mode : String
  operator_collection : Option (DenseOperatorCollection n)

/-- The `BaseGeneratorModel.drift` setter: stores the new drift and, when an
operator collection is present, also updates the collection's drift. -/
def GeneratorModel.drift_set {n : ℕ} (m : GeneratorModel n)
    (new_drift : Matrix (Fin n) (Fin n) ℂ) : GeneratorModel n :=
  { m with
    drift := new_drift
    operator_collection :=
      m.operator_collection.map fun c => { c with drift := new_drift } }

/-- The `GeneratorModel.evaluation_mode` setter: only the string
`"dense_operator_collection"` rebuilds the collection and records the mode;
any other string is silently ignored (the setter body is a single `if` with
no `else` and no `raise`).  The second component is the raised error, `none`
meaning no exception. -/
def GeneratorModel.evaluation_mode_set {n : ℕ} (m : GeneratorModel n)
    (new_mode : String) : GeneratorModel n × Option String :=
  if new_mode = "dense_operator_collection" then
    ({ m with
        operator_collection := some ⟨m.operators, m.drift⟩
        evaluation_mode := new_mode }, none)
  else
    (m, none)

/-- The `GeneratorModel.signals` setter: `None` clears the signals; a signal
list is accepted only when its length equals the collection's operator
count, otherwise a `QiskitError` is raised and the model is unchanged.
When no collection has been built, reading `num_operators` of `None` fails
(`AttributeError`).  The second component is the raised error. -/
def GeneratorModel.signals_set {n : ℕ} (m : GeneratorModel n)
    (new_signals : Option (List Sig)) : GeneratorModel n × Option String :=
  match new_signals with
  | none => ({ m with signals := none }, none)
  | some sl =>
    match m.operator_collection with
    | none => (m, some "AttributeError: NoneType has no attribute num_operators")
    | some c =>
      if sl.length = c.num_operators then
        ({ m with signals := some sl }, none)
      else
        (m, some "Signals needs to have the same length as operators.")

/-- The `GeneratorModel.frame` setter (generator_models.py lines 359-374):
if a frame is currently set, add `diagonal frame_diag` back onto the drift
and rotate operators and drift out of the old frame basis; install the new
frame; if it is non-trivial, rotate operators and drift into its diagonal
basis and subtract `diagonal frame_diag`; finally re-run the
`evaluation_mode` setter to rebuild the operator collection. -/
noncomputable def GeneratorModel.frame_set {n : ℕ} (m : GeneratorModel n)
    (new_frame : Option (FrameData n)) : GeneratorModel n :=
  let m1 :=
    match m.frame with
    | some fd =>
      let ma := m.drift_set (m.drift + Matrix.diagonal fd.frame_diag)
      let mb := { ma with
        operators := ma.operators.map (operator_out_of_frame_basis (some fd)) }
      mb.drift_set (operator_out_of_frame_basis (some fd) mb.drift)
    | none => m
  let m2 := { m1 with frame := new_frame }
  let m3 :=
    match new_frame with
    | some fd2 =>
      let ma := { m2 with
        operators := m2.operators.map (operator_into_frame_basis (some fd2)) }
      let mb := ma.drift_set (operator_into_frame_basis (some fd2) ma.drift)
      mb.drift_set (mb.drift - Matrix.diagonal fd2.frame_diag)
    | none => m2
  (m3.evaluation_mode_set m3.evaluation_mode).1

/-- The method `GeneratorModel.evaluate_generator` (generator_models.py lines 376-396):
raises a `QiskitError` when no signals are set; otherwise evaluates the
signals at `t`, combines the operators through the collection (result in
frame basis, un-rotated) and applies the frame rotation. -/
noncomputable def GeneratorModel.evaluate_generator {n : ℕ} (m : GeneratorModel n)
    (expf : ℂ → ℂ) (t : ℝ) (in_frame_basis : Bool) :
    Except String (Matrix (Fin n) (Fin n) ℂ) :=
  match m.signals with
  | none => .error "GeneratorModel cannot be evaluated without signals."
  | some sl =>
    match m.operator_collection with
    | none => .error "TypeError: NoneType object is not callable"
    | some c =>
      let sig_vals := sl.map fun s => s t
      let op_combo := c.call sig_vals
      .ok (operator_into_frame m.frame expf t op_combo true in_frame_basis)

/-- The method `GeneratorModel.evaluate_rhs` (generator_models.py lines 398-434):
raises a `QiskitError` when no signals are set; otherwise rotates `y` with
`state_out_of_frame`, multiplies by the un-rotated combined operator and
rotates back with `state_into_frame`. -/
noncomputable def GeneratorModel.evaluate_rhs {n : ℕ} (m : GeneratorModel n)
    (expf : ℂ → ℂ) (t : ℝ) (y : Fin n → ℂ) (in_frame_basis : Bool) :
    Except String (Fin n → ℂ) :=
  match m.signals with
  | none => .error "GeneratorModel cannot be evaluated without signals."
  | some sl =>
    match m.operator_collection with
    | none => .error "TypeError: NoneType object is not callable"
    | some c =>
      let sig_vals := sl.map fun s => s t
      let op_combo := c.call sig_vals
      match m.frame with
      | some fd =>
        let out1 := state_out_of_frame (some fd) expf t y in_frame_basis true
        let out2 := op_combo.mulVec out1
        .ok (state_into_frame (some fd) expf t out2 true in_frame_basis)
      | none => .ok (op_combo.mulVec y)

/-- The invariant of claim C1 for `GeneratorModel`: relative to the
user-supplied (lab-basis) operators and drift, the stored operators are the
user operators rotated into the current frame's diagonal basis, and the
stored drift is the user drift rotated into that basis minus
`diagonal frame_diag`. -/
def GeneratorModel.stored_in_frame_basis {n : ℕ} (m : GeneratorModel n)
    (user_operators : List (Matrix (Fin n) (Fin n) ℂ))
    (user_drift : Matrix (Fin n) (Fin n) ℂ) : Prop :=
  m.operators = user_operators.map (operator_into_frame_basis m.frame) ∧
  m.drift = operator_into_frame_basis m.frame user_drift - frame_diag_matrix m.frame

/-- Modelled from the spec: the three Lindblad operator-collection variants
(`dense`, `sparse`, `dense_vectorized`); each owns the Hamiltonian
operators, the drift, and the optional dissipator operators.  The sparse
variant must evaluate identically to the dense one, so it carries the same
data. -/
inductive LindbladCollection (n : ℕ) where
  | dense (hamiltonian_operators : List (Matrix (Fin n) (Fin n) ℂ))
      (drift : Matrix (Fin n) (Fin n) ℂ)
      (dissipator_operators : Option (List (Matrix (Fin n) (Fin n) ℂ)))
  | sparse (hamiltonian_operators : List (Matrix (Fin n) (Fin n) ℂ))
      (drift : Matrix (Fin n) (Fin n) ℂ)
      (dissipator_operators : Option (List (Matrix (Fin n) (Fin n) ℂ)))
  | denseVectorized (hamiltonian_operators : List (Matrix (Fin n) (Fin n) ℂ))
      (drift : Matrix (Fin n) (Fin n) ℂ)
      (dissipator_operators : Option (List (Matrix (Fin n) (Fin n) ℂ)))

/-- Update of the collection's drift, used by the inherited
`BaseGeneratorModel.drift` setter. -/
def LindbladCollection.drift_update {n : ℕ} (c : LindbladCollection n)
    (new_drift : Matrix (Fin n) (Fin n) ℂ) : LindbladCollection n :=
  match c with
  | .dense h _ d => .dense h new_drift d
  | .sparse h _ d => .sparse h new_drift d
  | .denseVectorized h _ d => .denseVectorized h new_drift d

/-- The state of a `LindbladModel` (lindblad_models.py): Hamiltonian and
dissipator operators and signals, the drift, the frame, the evaluation mode
(which may be `None`), the `vectorized_operators` flag and the operator
collection (`None` until a supported mode is set). -/
structure LindbladModel (n : ℕ) where
  hamiltonian_operators : List (Matrix (Fin n) (Fin n) ℂ)
  dissipator_operators : Option (List (Matrix (Fin n) (Fin n) ℂ))
  drift : Matrix (Fin n) (Fin n) ℂ
  hamiltonian_signals : List Sig
  dissipator_signals : Option (List Sig)
  frame : Option (FrameData n)
  evaluation_mode : Option String
  vectorized_operators : Bool
  operator_collection : Option (LindbladCollection n)

/-- The inherited `BaseGeneratorModel.drift` setter for `LindbladModel`. -/
def LindbladModel.drift_set {n : ℕ} (m : LindbladModel n)
    (new_drift : Matrix (Fin n) (Fin n) ℂ) : LindbladModel n :=
  { m with
    drift := new_drift
    operator_collection :=
      m.operator_collection.map fun c => c.drift_update new_drift }

/-- The `LindbladModel.evaluation_mode` setter (lindblad_models.py lines
151-187): the strings `"dense"`, `"sparse"` and `"dense_vectorized"` build
the corresponding collection and set `vectorized_operators`; `None` does
nothing except record the mode; any other string raises
`NotImplementedError` before any state is modified.  The second component is
the raised error. -/
def LindbladModel.evaluation_mode_set {n : ℕ} (m : LindbladModel n)
    (new_mode : Option String) : LindbladModel n × Option String :=
  if new_mode = some "dense" then
    ({ m with
        operator_collection :=
          some (.dense m.hamiltonian_operators m.drift m.dissipator_operators)
        vectorized_operators := false
        evaluation_mode := new_mode }, none)
  else if new_mode = some "sparse" then
    ({ m with
        operator_collection :=
          some (.sparse m.hamiltonian_operators m.drift m.dissipator_operators)
        vectorized_operators := false
        evaluation_mode := new_mode }, none)
  else if new_mode = some "dense_vectorized" then
    ({ m with
        operator_collection :=
          some (.denseVectorized m.hamiltonian_operators m.drift
            m.dissipator_operators)
        vectorized_operators := true
        evaluation_mode := new_mode }, none)
  else if new_mode = none then
    ({ m with evaluation_mode := none }, none)
  else
    (m, some ("Evaluation mode " ++ new_mode.getD "" ++ " is not supported."))

/-- The `LindbladModel.signals` setter (lindblad_models.py lines 135-137):
it unpacks the given pair into the Hamiltonian and dissipator signals with
no validation of any kind (in particular no length check against the
operator lists). -/
def LindbladModel.signals_set {n : ℕ} (m : LindbladModel n)
    (new_signals : List Sig × Option (List Sig)) :
    LindbladModel n × Option String :=
  ({ m with
      hamiltonian_signals := new_signals.1
      dissipator_signals := new_signals.2 }, none)

/-- The `LindbladModel.frame` setter (lindblad_models.py lines 225-254):
like the `GeneratorModel` one but with the drift correction
`diagonal (1j * frame_diag)` and with the dissipator operators rotated
alongside the Hamiltonian operators. -/
noncomputable def LindbladModel.frame_set {n : ℕ} (m : LindbladModel n)
    (new_frame : Option (FrameData n)) : LindbladModel n :=
  let m1 :=
    match m.frame with
    | some fd =>
      let ma := m.drift_set (m.drift +
        Matrix.diagonal (fun i => Complex.I * fd.frame_diag i))
      let mb := { ma with
        hamiltonian_operators :=
          ma.hamiltonian_operators.map (operator_out_of_frame_basis (some fd))
        dissipator_operators :=
          ma.dissipator_operators.map fun l : List (Matrix (Fin n) (Fin n) ℂ) =>
            l.map (operator_out_of_frame_basis (some fd)) }
      mb.drift_set (operator_out_of_frame_basis (some fd) mb.drift)
    | none => m
  let m2 := { m1 with frame := new_frame }
  let m3 :=
    match new_frame with
    | some fd2 =>
      let ma := { m2 with
        hamiltonian_operators :=
          m2.hamiltonian_operators.map (operator_into_frame_basis (some fd2))
        dissipator_operators :=
          m2.dissipator_operators.map fun l : List (Matrix (Fin n) (Fin n) ℂ) =>
            l.map (operator_into_frame_basis (some fd2)) }
      let mb := ma.drift_set (operator_into_frame_basis (some fd2) ma.drift)
      mb.drift_set (mb.drift -
        Matrix.diagonal (fun i => Complex.I * fd2.frame_diag i))
    | none => m2
  (m3.evaluation_mode_set m3.evaluation_mode).1

/-- Modelled from the spec: the vectorized Lindblad collection's
`evaluate_generator` builds the full Liouvillian superoperator
`-i (I ⊗ H - Hᵀ ⊗ I) + Σ_j γ_j (L_j ⊗ L_j* - (1/2) I ⊗ (L_jᵀ L_j*)
- (1/2) (L_j† L_j) ⊗ I)` from the combined Hamiltonian-side matrix and the
dissipator coefficient values. -/
noncomputable def vectorized_lindblad_generator {n : ℕ}
    (hamiltonian_operators : List (Matrix (Fin n) (Fin n) ℂ))
    (drift : Matrix (Fin n) (Fin n) ℂ)
    (dissipator_operators : Option (List (Matrix (Fin n) (Fin n) ℂ)))
    (ham_sig_vals : List ℂ) (dissipator_sig_vals : Option (List ℂ)) :
    Matrix (Fin n × Fin n) (Fin n × Fin n) ℂ :=
  let H := drift + (List.zipWith (· • ·) ham_sig_vals hamiltonian_operators).sum
  let unitary_part := -Complex.I •
    (Matrix.kroneckerMap (· * ·) 1 H - Matrix.kroneckerMap (· * ·) Hᵀ 1)
  let dissipator_part :=
    match dissipator_operators, dissipator_sig_vals with
    | some ls, some gs =>
      (List.zipWith
        (fun g L => g •
          (Matrix.kroneckerMap (· * ·) L (L.map (starRingEnd ℂ)) -
            (2⁻¹ : ℂ) •
              Matrix.kroneckerMap (· * ·) 1 (Lᵀ * L.map (starRingEnd ℂ)) -
            (2⁻¹ : ℂ) • Matrix.kroneckerMap (· * ·) (dagger L * L) 1))
        gs ls).sum
    | _, _ => 0
  unitary_part + dissipator_part

/-- Modelled from the spec: `bring_vectorized_operator_into_frame` applies
the frame rotation to a superoperator-vectorized matrix, with the phase grid
built from `frame_diag` entries (Kronecker structure `d_i - d_j*`) and basis
conversion by the vectorized frame basis. -/
noncomputable def bring_vectorized_operator_into_frame {n : ℕ}
    (f : Option (FrameData n)) (expf : ℂ → ℂ) (t : ℝ)
    (S : Matrix (Fin n × Fin n) (Fin n × Fin n) ℂ)
    (operator_in_frame_basis return_in_frame_basis : Bool) :
    Matrix (Fin n × Fin n) (Fin n × Fin n) ℂ :=
  match f with
  | none => S
  | some fd =>
    let B := Matrix.kroneckerMap (· * ·) (fd.frame_basis.map (starRingEnd ℂ))
      fd.frame_basis
    let dvec : Fin n × Fin n → ℂ := fun p =>
      fd.frame_diag p.2 - starRingEnd ℂ (fd.frame_diag p.1)
    let Sb := if operator_in_frame_basis then S else dagger B * S * B
    let Sr := Matrix.diagonal (fun p => expf (-(t * dvec p))) * Sb *
      Matrix.diagonal (fun p => expf (t * dvec p))
    if return_in_frame_basis then Sr else B * Sr * dagger B

/-- The method `LindbladModel.evaluate_generator` (lindblad_models.py lines 256-271):
evaluates the dissipator signals, then, only when the evaluation mode is
`"dense_vectorized"`, builds the vectorized generator and rotates it into
the frame; in every other mode it raises `NotImplementedError`.  Reading
`evaluate_generator` off a non-vectorized collection while the mode string
claims vectorized evaluation would be an `AttributeError` in the source. -/
noncomputable def LindbladModel.evaluate_generator {n : ℕ}
    (m : LindbladModel n) (expf : ℂ → ℂ) (t : ℝ) (in_frame_basis : Bool) :
    Except String (Matrix (Fin n × Fin n) (Fin n × Fin n) ℂ) :=
  let dissipator_sig_vals : Option (List ℂ) :=
    m.dissipator_signals.map fun sl => sl.map fun s => s t
  if m.evaluation_mode = some "dense_vectorized" then
    match m.operator_collection with
    | some (.denseVectorized hops dr dops) =>
      let out := vectorized_lindblad_generator hops dr dops
        (m.hamiltonian_signals.map fun s => s t) dissipator_sig_vals
      .ok (bring_vectorized_operator_into_frame m.frame expf t out true
        in_frame_basis)
    | _ => .error "AttributeError: evaluate_generator"
  else
    .error "Non-vectorized Lindblad models cannot be represented without a given state."

/-- The invariant of claim C1 for `LindbladModel`: relative to the
user-supplied (lab-basis) Hamiltonian operators, dissipator operators and
drift, the stored operators are the user ones rotated into the current
frame's diagonal basis, and the stored drift is the user drift rotated into
that basis minus `diagonal (1j * frame_diag)`. -/
def LindbladModel.stored_in_frame_basis {n : ℕ} (m : LindbladModel n)
    (user_ham_operators : List (Matrix (Fin n) (Fin n) ℂ))
    (user_diss_operators : Option (List (Matrix (Fin n) (Fin n) ℂ)))
    (user_drift : Matrix (Fin n) (Fin n) ℂ) : Prop :=
  m.hamiltonian_operators =
    user_ham_operators.map (operator_into_frame_basis m.frame) ∧
  m.dissipator_operators =
    user_diss_operators.map (fun l => l.map (operator_into_frame_basis m.frame)) ∧
  m.drift =
    operator_into_frame_basis m.frame user_drift - frame_diag_matrix_i m.frame

/-- The state of a `Solver` (solver_classes.py) that wraps a Hamiltonian
model: the model, the optional signal-remapping function recorded by the
rotating-wave-approximation pass, the jit cache of already-compiled sample
durations, and the channel list. -/
structure Solver (n : ℕ) where
  model : GeneratorModel n
  rwa_signal_map : Option (Option (List Sig) → Option (List Sig))
  jit_cache : Finset ℕ
  all_channels : List String

/-- The context manager `Solver.signal_assignment` (solver_classes.py lines 572-588), run
against a body with a fixed outcome.  The translation follows the
`@contextmanager` generator statement by statement: save the old signals,
remap the requested ones, install them through the model's signals setter,
run the body, and, on the statement after `yield`, restore the old signals.
There is no `try`/`finally` around the `yield`, so when the body raises, the
exception is thrown into the generator at the `yield` and the restoring
statement after it never executes; an error raised by the setter during
entry likewise propagates before the body runs. -/
def Solver.signal_assignment_run {n : ℕ} (s : Solver n)
    (signals : Option (List Sig)) (body : Except String Unit) :
    Except String Unit × Solver n :=
  let old_signals := s.model.signals
  let remapped :=
    match s.rwa_signal_map with
    | some f => f signals
    | none => signals
  let enter := s.model.signals_set remapped
  match enter.2 with
  | some e => (.error e, { s with model := enter.1 })
  | none =>
    match body with
    | .error e => (.error e, { s with model := enter.1 })
    | .ok a =>
      let leave := enter.1.signals_set old_signals
      match leave.2 with
      | some e => (.error e, { s with model := leave.1 })
      | none => (.ok a, { s with model := leave.1 })

/-- Python's `round` applied to `1.5 * r` for a natural number `r`
(`_JIT_DURATION_PADDING = 1.5`): the value is an exact integer for even
`r` and an exact half-integer for odd `r`, which Python rounds to the even
neighbour (banker's rounding). -/
def pyRound15 (r : ℕ) : ℕ :=
  if r % 2 = 0 then 3 * r / 2
  else
    let k := 3 * r / 2
    if k % 2 = 0 then k else k + 1

/-- The method `Solver._jit_shape` (solver_classes.py lines 590-601): walk the cached
durations in increasing order and return the first `duration` with
`duration * _JIT_MIN_PADDING_FRAC < required_duration <= duration` (with
`_JIT_MIN_PADDING_FRAC = 0.2 = 1/5`, the strict inequality is
`duration < 5 * required_duration` over the integers); if none qualifies,
append `round(1.5 * required_duration)` to the cache and return it,
together with the channel count. -/
def Solver.jit_shape {n : ℕ} (s : Solver n) (required_duration : ℕ) :
    (ℕ × ℕ) × Solver n :=
  match (s.jit_cache.sort (· ≤ ·)).find? (fun duration =>
      decide (duration < 5 * required_duration) &&
      decide (required_duration ≤ duration)) with
  | some duration => ((s.all_channels.length, duration), s)
  | none =>
    let duration := pyRound15 required_duration
    ((s.all_channels.length, duration),
      { s with jit_cache := insert duration s.jit_cache })

/-- The class tag recorded by `initial_state_converter` for the initial
state (`y0_cls` in the source); `Option Y0Class` with `none` is the
`y0_cls = None` case of raw arrays. -/
inductive Y0Class where
  | statevector
  | densityMatrix
  | superOp
  | operatorCls
deriving DecidableEq

/-- A raw state array as handled by the solver: a vector, a square matrix,
a superoperator-sized matrix, or a flattened density matrix (the result of
`flatten(order="F")`; the pair `(j, i)` in lexicographic order is the
column-major index `i + j * n`). -/
inductive StateArray (n : ℕ) where
  | vec (v : Fin n → ℂ)
  | mat (A : Matrix (Fin n) (Fin n) ℂ)
  | supermat (S : Matrix (Fin n × Fin n) (Fin n × Fin n) ℂ)
  | vecsq (v : Fin n × Fin n → ℂ)

/-- The numpy shape of a `StateArray`. -/
def StateArray.npshape {n : ℕ} : StateArray n → List ℕ
  | .vec _ => [n]
  | .mat _ => [n, n]
  | .supermat _ => [n * n, n * n]
  | .vecsq _ => [n * n]

/-- The user-facing initial-state object given to `Solver.solve`: a
`Statevector`, a `DensityMatrix`, a `QuantumChannel`, an `Operator`-like
object, or a raw array. -/
inductive InputObj (n : ℕ) where
  | statevectorObj (v : Fin n → ℂ)
  | densityMatrixObj (A : Matrix (Fin n) (Fin n) ℂ)
  | quantumChannelObj (S : Matrix (Fin n × Fin n) (Fin n × Fin n) ℂ)
  | operatorObj (A : Matrix (Fin n) (Fin n) ℂ)
  | arrayObj (a : StateArray n)

/-- The kind of model held by the solver: a `HamiltonianModel`, or a
`LindbladModel` whose evaluation mode is or is not vectorized (the
`is_lindblad_model_vectorized` / `..._not_vectorized` predicates of
solver_utils.py, which are not part of the provided sources, reduce to this
tag). -/
inductive ModelKind where
  | hamiltonian
  | lindblad (vectorized : Bool)
deriving DecidableEq

/-- The function `initial_state_converter` (solver_classes.py lines 648-678): produce the
raw array of the state object together with its class tag (`QuantumChannel`
inputs are converted to their `SuperOp` representation). -/
def initial_state_converter {n : ℕ} (obj : InputObj n) :
    StateArray n × Option Y0Class :=
  match obj with
  | .statevectorObj v => (.vec v, some .statevector)
  | .densityMatrixObj A => (.mat A, some .densityMatrix)
  | .quantumChannelObj S => (.supermat S, some .superOp)
  | .operatorObj A => (.mat A, some .operatorCls)
  | .arrayObj a => (a, none)

/-- The function `validate_and_format_initial_state` (solver_classes.py lines 681-738):
convert a `Statevector` to a `DensityMatrix` when the model is a
`LindbladModel`; convert the object to a raw array and remember it as
`y0_input`; reject `SuperOp` input for a non-vectorized Lindblad model;
substitute the identity matrix of the model's dimension as the state to be
integrated when simulating a `DensityMatrix` or `SuperOp` with a
`HamiltonianModel`; flatten a `DensityMatrix` column-major for a vectorized
Lindblad model; and validate the resulting shape. -/
def validate_and_format_initial_state {n : ℕ} (y0 : InputObj n)
    (model : ModelKind) :
    Except String (StateArray n × StateArray n × Option Y0Class) :=
  let y0a : InputObj n :=
    match y0, model with
    | .statevectorObj v, .lindblad _ =>
      .densityMatrixObj (Matrix.of fun i j => v i * starRingEnd ℂ (v j))
    | x, _ => x
  let conv := initial_state_converter y0a
  let y0_input := conv.1
  let y0_cls := conv.2
  if y0_cls = some .superOp ∧ model matches .lindblad false then
    .error "Simulating SuperOp for a LindbladModel requires setting vectorized evaluation."
  else
    let y0b : StateArray n :=
      if (y0_cls = some .densityMatrix ∨ y0_cls = some .superOp) ∧
          model = .hamiltonian then
        .mat 1
      else if y0_cls = some .densityMatrix ∧ model = .lindblad true then
        match conv.1 with
        | .mat A => .vecsq fun p => A p.2 p.1
        | x => x
      else
        conv.1
    if model = .hamiltonian ∧ y0b.npshape.headD 0 ≠ n then
      .error "Shape mismatch for initial state y0 and HamiltonianModel."
    else if model = .lindblad true ∧ y0b.npshape.headD 0 ≠ n ^ 2 then
      .error "Shape mismatch for initial state y0 and LindbladModel in vectorized evaluation mode."
    else if model = .lindblad false ∧
        y0b.npshape.drop (y0b.npshape.length - 2) ≠ [n, n] then
      .error "Shape mismatch for initial state y0 and LindbladModel."
    else
      .ok (y0b, y0_input, y0_cls)

/-- The function `format_final_states` (solver_classes.py lines 741-760) applied to the
list of solution states: for a `DensityMatrix` initial state with a
`HamiltonianModel`, conjugate the initial density matrix with each computed
unitary (`y @ y0_input @ y.conj().transpose((0, 2, 1))`); for a `SuperOp`
initial state with a `HamiltonianModel`, form the superoperator
`einsum("nka,nlb->nklab", conj y, y)` reshaped to `(n^2, n^2)` — entry
`((k, l), (a, b))` is `conj (U k a) * U l b` — and compose it with
`y0_input`; for a `DensityMatrix` with a vectorized Lindblad model, reshape
the flattened states back column-major; otherwise return the states
unchanged. -/
noncomputable def format_final_states {n : ℕ} (y : List (StateArray n))
    (model : ModelKind) (y0_input : StateArray n) (y0_cls : Option Y0Class) :
    List (StateArray n) :=
  match y0_cls, model, y0_input with
  | some .densityMatrix, .hamiltonian, .mat rho =>
    y.map fun yi =>
      match yi with
      | .mat U => .mat (U * rho * dagger U)
      | x => x
  | some .superOp, .hamiltonian, .supermat S =>
    y.map fun yi =>
      match yi with
      | .mat U =>
        .supermat
          ((Matrix.of fun p q => starRingEnd ℂ (U p.1 q.1) * U p.2 q.2) * S)
      | x => x
  | some .densityMatrix, .lindblad true, _ =>
    y.map fun yi =>
      match yi with
      | .vecsq v => .mat (Matrix.of fun i j => v (j, i))
      | x => x
  | _, _, _ => y

/-- The superoperator induced by a unitary `U` in column-stacking
convention, `conj U ⊗ U`, as named by claim C10. -/
def super_op_of_unitary {n : ℕ} (U : Matrix (Fin n) (Fin n) ℂ) :
    Matrix (Fin n × Fin n) (Fin n × Fin n) ℂ :=
  Matrix.kroneckerMap (· * ·) (U.map (starRingEnd ℂ)) U

/-- The zero signal. -/
def sig0 : Sig := fun _ => 0

/-- The constant-one signal. -/
def sig1 : Sig := fun _ => 1

/-- A concrete one-dimensional frame: trivial basis, diagonal `(i)`
(decomposing the anti-Hermitian frame operator `F = i`). -/
def frame0 : FrameData 1 := ⟨fun _ => Complex.I, 1⟩

/-- A trivial exponential stand-in used by concrete witnesses (the claims
hold for every `expf`, in particular for this one). -/
def expf0 : ℂ → ℂ := fun _ => 1

/-- A freshly constructed one-dimensional `GeneratorModel` before any
collection or signals have been installed. -/
def genW : GeneratorModel 1 :=
  ⟨[], 0, none, none, "dense_operator_collection", none⟩

/-- A fully initialized one-dimensional `GeneratorModel` with one operator,
matching signals and a built dense collection. -/
def genC : GeneratorModel 1 :=
  ⟨[0], 0, some [sig0], none, "dense_operator_collection", some ⟨[0], 0⟩⟩

/-- A freshly constructed one-dimensional `LindbladModel` before any
collection has been installed. -/
def lindW : LindbladModel 1 :=
  ⟨[], none, 0, [], none, none, none, false, none⟩

/-- A fully initialized one-dimensional `LindbladModel` in `"dense"`
evaluation mode with one Hamiltonian operator and no dissipators. -/
def lindC : LindbladModel 1 :=
  ⟨[0], none, 0, [sig0], none, none, some "dense", false,
    some (.dense [0] 0 none)⟩

/-- A one-dimensional `LindbladModel` in `"dense_vectorized"` evaluation
mode. -/
def lindV : LindbladModel 1 :=
  ⟨[0], none, 0, [sig0], none, none, some "dense_vectorized", true,
    some (.denseVectorized [0] 0 none)⟩

/-- A concrete solver around `genC` with an empty jit cache and no
rotating-wave remapping. -/
def solver0 : Solver 1 := ⟨genC, none, ∅, []⟩

/-- The function `dagger` agrees with `conjTranspose`. -/
lemma dagger_eq_conjTranspose {I : Type} (A : Matrix I I ℂ) :
    dagger A = Aᴴ := by
  ext i j
  simp [dagger, Matrix.conjTranspose_apply]

/-- Conjugating by a matrix with unitary-style right inverse and back is the
identity. -/
lemma conj_basis_cancel {n : ℕ} (U X : Matrix (Fin n) (Fin n) ℂ)
    (hU : U * dagger U = 1) : U * (dagger U * X * U) * dagger U = X := by
  have h : U * (dagger U * X * U) * dagger U = (U * dagger U) * X * (U * dagger U) := by
    noncomm_ring
  rw [h, hU, one_mul, mul_one]

/-- Rotating an operator into the frame basis and back out is the identity
when the frame basis is unitary. -/
lemma out_of_into_frame_basis {n : ℕ} (fd : FrameData n)
    (hU : frame_unitary (some fd)) (X : Matrix (Fin n) (Fin n) ℂ) :
    operator_out_of_frame_basis (some fd) (operator_into_frame_basis (some fd) X) = X := by
  simp only [operator_out_of_frame_basis, operator_into_frame_basis]
  exact conj_basis_cancel _ _ hU

/-- Claim C7: a `GeneratorModel` whose signals are `None` raises a
`QiskitError` from both `evaluate_generator` and `evaluate_rhs`, for every
time, state, basis flag and exponential. -/
theorem evaluate_without_signals_raises :
    ∀ (n : ℕ) (m : GeneratorModel n) (expf : ℂ → ℂ) (t : ℝ) (y : Fin n → ℂ)
      (b : Bool), m.signals = none →
      m.evaluate_generator expf t b =
        .error "GeneratorModel cannot be evaluated without signals." ∧
      m.evaluate_rhs expf t y b =
        .error "GeneratorModel cannot be evaluated without signals." := by
  intro n m expf t y b hs
  constructor
  · rw [GeneratorModel.evaluate_generator, hs]
  · rw [GeneratorModel.evaluate_rhs, hs]

/-- Witness for C7 at the concrete signal-free model `genW`. -/
theorem evaluate_without_signals_raises_witness :
    genW.evaluate_generator expf0 0 false =
      .error "GeneratorModel cannot be evaluated without signals." ∧
    genW.evaluate_rhs expf0 0 (fun _ => 0) false =
      .error "GeneratorModel cannot be evaluated without signals." :=
  evaluate_without_signals_raises 1 genW expf0 0 (fun _ => 0) false rfl

/-- Claim C8: `LindbladModel.evaluate_generator` raises
`NotImplementedError` for every time whenever the evaluation mode is not
`"dense_vectorized"`, and never raises that error when the mode is
`"dense_vectorized"`. -/
theorem lindblad_evaluate_generator_vectorized_only :
    ∀ (n : ℕ) (m : LindbladModel n) (expf : ℂ → ℂ) (t : ℝ) (b : Bool),
      (m.evaluation_mode ≠ some "dense_vectorized" →
        m.evaluate_generator expf t b =
          .error "Non-vectorized Lindblad models cannot be represented without a given state.") ∧
      (m.evaluation_mode = some "dense_vectorized" →
        m.evaluate_generator expf t b ≠
          .error "Non-vectorized Lindblad models cannot be represented without a given state.") := by
  intro n m expf t b
  constructor
  · intro hmode
    rw [LindbladModel.evaluate_generator, if_neg hmode]
  · intro hmode
    rw [LindbladModel.evaluate_generator, if_pos hmode]
    rcases hc : m.operator_collection with _ | c
    · simp
    · cases c <;> simp

/-- Witness for C8: the dense-mode model `lindC` gets the
`NotImplementedError`, the vectorized model `lindV` does not. -/
theorem lindblad_evaluate_generator_vectorized_only_witness :
    lindC.evaluate_generator expf0 0 false =
      .error "Non-vectorized Lindblad models cannot be represented without a given state." ∧
    lindV.evaluate_generator expf0 0 false ≠
      .error "Non-vectorized Lindblad models cannot be represented without a given state." :=
  ⟨(lindblad_evaluate_generator_vectorized_only 1 lindC expf0 0 false).1 (by decide),
   (lindblad_evaluate_generator_vectorized_only 1 lindV expf0 0 false).2 rfl⟩

/-- Counterexample to C5 as stated: assigning the unsupported string
`"sparse"` to the `evaluation_mode` of the concrete `GeneratorModel` `genC`
raises no error at property-set time — the setter silently returns with the
model unchanged. -/
theorem generator_unsupported_mode_silently_ignored :
    genC.evaluation_mode_set "sparse" = (genC, none) := rfl

/-- Amended C5: `LindbladModel` raises `NotImplementedError` synchronously
for every unsupported mode string and leaves the model (hence its operator
collection) untouched, while `GeneratorModel` silently ignores every string
other than `"dense_operator_collection"`, also leaving the model untouched
and raising nothing. -/
theorem evaluation_mode_set_error_behaviour :
    (∀ (n : ℕ) (m : LindbladModel n) (mode : String),
      mode ≠ "dense" → mode ≠ "sparse" → mode ≠ "dense_vectorized" →
        m.evaluation_mode_set (some mode) =
          (m, some ("Evaluation mode " ++ mode ++ " is not supported."))) ∧
    (∀ (n : ℕ) (m : GeneratorModel n) (mode : String),
      mode ≠ "dense_operator_collection" →
        m.evaluation_mode_set mode = (m, none)) := by
  constructor
  · intro n m mode h1 h2 h3
    rw [LindbladModel.evaluation_mode_set]
    rw [if_neg (by simpa using h1), if_neg (by simpa using h2),
      if_neg (by simpa using h3), if_neg (by simp)]
    rfl
  · intro n m mode h
    rw [GeneratorModel.evaluation_mode_set, if_neg h]

/-- Witness for the amended C5 at the concrete models `lindC` and `genC`
with the unsupported mode string `"foo"` (resp. `"sparse"`). -/
theorem evaluation_mode_set_error_behaviour_witness :
    lindC.evaluation_mode_set (some "foo") =
      (lindC, some "Evaluation mode foo is not supported.") ∧
    genC.evaluation_mode_set "sparse" = (genC, none) :=
  ⟨evaluation_mode_set_error_behaviour.1 1 lindC "foo" (by decide) (by decide)
      (by decide),
   evaluation_mode_set_error_behaviour.2 1 genC "sparse" (by decide)⟩

/-- Counterexample to C6 as stated: the `LindbladModel.signals` setter on
the concrete model `lindC`, which has exactly one Hamiltonian operator,
accepts a two-signal Hamiltonian list without raising any error. -/
theorem lindblad_signals_length_unchecked :
    (lindC.signals_set ([sig0, sig1], none)).2 = none ∧
    (lindC.signals_set ([sig0, sig1], none)).1.hamiltonian_signals.length = 2 ∧
    lindC.hamiltonian_operators.length = 1 :=
  ⟨rfl, rfl, rfl⟩

/-- Amended C6: `GeneratorModel` raises a `QiskitError` at property-set time
when the signal list length differs from the collection's operator count,
leaving the signals unchanged; the `LindbladModel` signals setter, by
contrast, performs no length validation and stores any given pair without
error. -/
theorem signals_length_check_behaviour :
    (∀ (n : ℕ) (m : GeneratorModel n) (c : DenseOperatorCollection n)
      (sl : List Sig), m.operator_collection = some c →
      sl.length ≠ c.num_operators →
        m.signals_set (some sl) =
          (m, some "Signals needs to have the same length as operators.")) ∧
    (∀ (n : ℕ) (m : LindbladModel n) (p : List Sig × Option (List Sig)),
      (m.signals_set p).2 = none ∧
      (m.signals_set p).1.hamiltonian_signals = p.1 ∧
      (m.signals_set p).1.dissipator_signals = p.2) := by
  constructor
  · intro n m c sl hc hlen
    rw [GeneratorModel.signals_set, hc]
    simp only [if_neg hlen]
  · intro n m p
    exact ⟨rfl, rfl, rfl⟩

/-- Witness for the amended C6: `genC` has one operator and rejects a
two-signal list unchanged; `lindC` stores any pair. -/
theorem signals_length_check_behaviour_witness :
    genC.signals_set (some [sig0, sig1]) =
      (genC, some "Signals needs to have the same length as operators.") ∧
    ((lindC.signals_set ([sig1], none)).2 = none ∧
      (lindC.signals_set ([sig1], none)).1.hamiltonian_signals = [sig1] ∧
      (lindC.signals_set ([sig1], none)).1.dissipator_signals = none) :=
  ⟨signals_length_check_behaviour.1 1 genC ⟨[0], 0⟩ [sig0, sig1] rfl (by decide),
   signals_length_check_behaviour.2 1 lindC ([sig1], none)⟩

/-- Claim C3: for every `GeneratorModel`, time, state and basis flag (and
every exponential), `evaluate_rhs` agrees with multiplying the state by the
matrix returned by `evaluate_generator`; in particular both raise the same
error when no signals are set, so the identity needs no hypothesis. -/
theorem evaluate_rhs_eq_generator_mulvec :
    ∀ (n : ℕ) (m : GeneratorModel n) (expf : ℂ → ℂ) (t : ℝ) (y : Fin n → ℂ)
      (b : Bool),
      m.evaluate_rhs expf t y b =
        (m.evaluate_generator expf t b).map fun G => G.mulVec y := by
  intro n m expf t y b
  rw [GeneratorModel.evaluate_rhs, GeneratorModel.evaluate_generator]
  rcases m.signals with _ | sl
  · rfl
  · rcases m.operator_collection with _ | c
    · rfl
    · rcases m.frame with _ | fd
      · simp [operator_into_frame, Except.map]
      · cases b <;>
          simp [operator_into_frame, state_into_frame, state_out_of_frame,
            Matrix.mulVec_mulVec, Matrix.mul_assoc, Except.map]

/-- With no frame set, rotation into the frame basis is the identity. -/
lemma operator_into_frame_basis_none {n : ℕ} :
    operator_into_frame_basis (none : Option (FrameData n)) = id := rfl

/-- With no frame set, the drift correction matrix is zero. -/
lemma frame_diag_matrix_none {n : ℕ} :
    frame_diag_matrix (none : Option (FrameData n)) = 0 := rfl

/-- With no frame set, the Lindblad drift correction matrix is zero. -/
lemma frame_diag_matrix_i_none {n : ℕ} :
    frame_diag_matrix_i (none : Option (FrameData n)) = 0 := rfl

/-- The `GeneratorModel.evaluation_mode` setter never changes the stored
operators, drift or frame. -/
lemma generator_evaluation_mode_set_fields {n : ℕ} (m : GeneratorModel n)
    (mode : String) :
    (m.evaluation_mode_set mode).1.operators = m.operators ∧
    (m.evaluation_mode_set mode).1.drift = m.drift ∧
    (m.evaluation_mode_set mode).1.frame = m.frame := by
  rw [GeneratorModel.evaluation_mode_set]
  split <;> exact ⟨rfl, rfl, rfl⟩

/-- The fields of a `GeneratorModel` after `frame_set`, relative to the
user-supplied lab-basis operators and drift of the invariant. -/
lemma generator_frame_set_fields {n : ℕ} (m : GeneratorModel n)
    (nf : Option (FrameData n)) (uo : List (Matrix (Fin n) (Fin n) ℂ))
    (ud : Matrix (Fin n) (Fin n) ℂ) (hU : frame_unitary m.frame)
    (h : m.stored_in_frame_basis uo ud) :
    (m.frame_set nf).operators = uo.map (operator_into_frame_basis nf) ∧
    (m.frame_set nf).drift =
      operator_into_frame_basis nf ud - frame_diag_matrix nf ∧
    (m.frame_set nf).frame = nf := by
  obtain ⟨hops, hdrift⟩ := h
  rw [GeneratorModel.frame_set.eq_def]
  rcases hfm : m.frame with _ | fd
  · rw [hfm] at hops hdrift
    rw [operator_into_frame_basis_none, List.map_id] at hops
    rw [operator_into_frame_basis_none, frame_diag_matrix_none] at hdrift
    simp only [id_eq, sub_zero] at hdrift
    rcases nf with _ | fd2 <;>
      simp only [GeneratorModel.drift_set, GeneratorModel.evaluation_mode_set,
        hops, hdrift, operator_into_frame_basis_none, frame_diag_matrix_none,
        frame_diag_matrix, id_eq, List.map_id, sub_zero] <;>
      split <;> exact ⟨rfl, rfl, rfl⟩
  · rw [hfm] at hops hdrift hU
    have hout : ∀ X : Matrix (Fin n) (Fin n) ℂ,
        operator_out_of_frame_basis (some fd)
          (operator_into_frame_basis (some fd) X) = X :=
      out_of_into_frame_basis fd hU
    have hops2 : List.map (operator_out_of_frame_basis (some fd)) m.operators = uo := by
      rw [hops, List.map_map]
      have hcomp : operator_out_of_frame_basis (some fd) ∘
          operator_into_frame_basis (some fd) =
          (id : Matrix (Fin n) (Fin n) ℂ → Matrix (Fin n) (Fin n) ℂ) :=
        funext fun X => hout X
      rw [hcomp, List.map_id]
    have hdr2 : operator_out_of_frame_basis (some fd)
        (m.drift + Matrix.diagonal fd.frame_diag) = ud := by
      rw [hdrift]
      have hsum : operator_into_frame_basis (some fd) ud -
          frame_diag_matrix (some fd) + Matrix.diagonal fd.frame_diag =
          operator_into_frame_basis (some fd) ud := by
        simp [frame_diag_matrix]
      rw [hsum, hout]
    rcases nf with _ | fd2 <;>
      simp only [GeneratorModel.drift_set, GeneratorModel.evaluation_mode_set,
        hops2, hdr2, operator_into_frame_basis_none, frame_diag_matrix_none,
        frame_diag_matrix, id_eq, List.map_id, sub_zero] <;>
      split <;> exact ⟨rfl, rfl, rfl⟩

/-- The `LindbladModel.evaluation_mode` setter never changes the stored
operators, drift or frame. -/
lemma lindblad_evaluation_mode_set_fields {n : ℕ} (m : LindbladModel n)
    (mode : Option String) :
    (m.evaluation_mode_set mode).1.hamiltonian_operators =
      m.hamiltonian_operators ∧
    (m.evaluation_mode_set mode).1.dissipator_operators =
      m.dissipator_operators ∧
    (m.evaluation_mode_set mode).1.drift = m.drift ∧
    (m.evaluation_mode_set mode).1.frame = m.frame := by
  rw [LindbladModel.evaluation_mode_set]
  split
  · exact ⟨rfl, rfl, rfl, rfl⟩
  · split
    · exact ⟨rfl, rfl, rfl, rfl⟩
    · split
      · exact ⟨rfl, rfl, rfl, rfl⟩
      · split <;> exact ⟨rfl, rfl, rfl, rfl⟩

/-- The fields of a `LindbladModel` after `frame_set`, relative to the
user-supplied lab-basis operators and drift of the invariant. -/
lemma lindblad_frame_set_fields {n : ℕ} (m : LindbladModel n)
    (nf : Option (FrameData n))
    (uh : List (Matrix (Fin n) (Fin n) ℂ))
    (uds : Option (List (Matrix (Fin n) (Fin n) ℂ)))
    (ud : Matrix (Fin n) (Fin n) ℂ) (hU : frame_unitary m.frame)
    (h : m.stored_in_frame_basis uh uds ud) :
    (m.frame_set nf).hamiltonian_operators =
      uh.map (operator_into_frame_basis nf) ∧
    (m.frame_set nf).dissipator_operators =
      uds.map (fun l => l.map (operator_into_frame_basis nf)) ∧
    (m.frame_set nf).drift =
      operator_into_frame_basis nf ud - frame_diag_matrix_i nf ∧
    (m.frame_set nf).frame = nf := by
  obtain ⟨hops, hdiss, hdrift⟩ := h
  rw [LindbladModel.frame_set.eq_def]
  rcases hfm : m.frame with _ | fd
  · rw [hfm] at hops hdiss hdrift
    rw [operator_into_frame_basis_none, List.map_id] at hops
    rw [operator_into_frame_basis_none, frame_diag_matrix_i_none] at hdrift
    simp only [id_eq, sub_zero] at hdrift
    have hdiss2 : m.dissipator_operators = uds := by
      rw [hdiss]
      rcases uds with _ | l
      · rfl
      · show some (l.map (operator_into_frame_basis none)) = some l
        rw [operator_into_frame_basis_none, List.map_id]
    rcases nf with _ | fd2 <;>
      simp [LindbladModel.drift_set, lindblad_evaluation_mode_set_fields,
        hops, hdiss2, hdrift, operator_into_frame_basis_none,
        frame_diag_matrix_i_none, frame_diag_matrix_i]
  · rw [hfm] at hops hdiss hdrift hU
    have hout : ∀ X : Matrix (Fin n) (Fin n) ℂ,
        operator_out_of_frame_basis (some fd)
          (operator_into_frame_basis (some fd) X) = X :=
      out_of_into_frame_basis fd hU
    have hcomp : operator_out_of_frame_basis (some fd) ∘
        operator_into_frame_basis (some fd) =
        (id : Matrix (Fin n) (Fin n) ℂ → Matrix (Fin n) (Fin n) ℂ) :=
      funext fun X => hout X
    have hops2 : List.map (operator_out_of_frame_basis (some fd))
        m.hamiltonian_operators = uh := by
      rw [hops, List.map_map, hcomp, List.map_id]
    have hdiss2 : Option.map
        (fun l : List (Matrix (Fin n) (Fin n) ℂ) =>
          l.map (operator_out_of_frame_basis (some fd)))
        m.dissipator_operators = uds := by
      rw [hdiss]
      rcases uds with _ | l
      · rfl
      · show some ((l.map (operator_into_frame_basis (some fd))).map
            (operator_out_of_frame_basis (some fd))) = some l
        rw [List.map_map, hcomp, List.map_id]
    have hdr2 : operator_out_of_frame_basis (some fd)
        (m.drift + Matrix.diagonal (fun i => Complex.I * fd.frame_diag i)) = ud := by
      rw [hdrift]
      have hsum : operator_into_frame_basis (some fd) ud -
          frame_diag_matrix_i (some fd) +
          Matrix.diagonal (fun i => Complex.I * fd.frame_diag i) =
          operator_into_frame_basis (some fd) ud := by
        simp [frame_diag_matrix_i]
      rw [hsum, hout]
    rcases nf with _ | fd2 <;>
      simp [LindbladModel.drift_set, lindblad_evaluation_mode_set_fields,
        hops2, hdiss2, hdr2, operator_into_frame_basis_none,
        frame_diag_matrix_i_none, frame_diag_matrix_i]

/-- Claim C1: for `GeneratorModel` and `LindbladModel`, the frame setter
re-establishes the storage invariant after every frame change: the stored
operators are the user-supplied ones expressed in the new frame's diagonal
basis and the stored drift is the user drift in that basis minus
`diag(frame_diag)` (resp. minus `1j * diag(frame_diag)` for the Lindblad
model). -/
theorem frame_setter_reestablishes_basis_invariant :
    (∀ (n : ℕ) (m : GeneratorModel n) (uo : List (Matrix (Fin n) (Fin n) ℂ))
      (ud : Matrix (Fin n) (Fin n) ℂ) (nf : Option (FrameData n)),
      frame_unitary m.frame → m.stored_in_frame_basis uo ud →
        (m.frame_set nf).stored_in_frame_basis uo ud) ∧
    (∀ (n : ℕ) (m : LindbladModel n) (uh : List (Matrix (Fin n) (Fin n) ℂ))
      (uds : Option (List (Matrix (Fin n) (Fin n) ℂ)))
      (ud : Matrix (Fin n) (Fin n) ℂ) (nf : Option (FrameData n)),
      frame_unitary m.frame → m.stored_in_frame_basis uh uds ud →
        (m.frame_set nf).stored_in_frame_basis uh uds ud) := by
  constructor
  · intro n m uo ud nf hU h
    obtain ⟨h1, h2, h3⟩ := generator_frame_set_fields m nf uo ud hU h
    constructor
    · rw [h1, h3]
    · rw [h2, h3]
  · intro n m uh uds ud nf hU h
    obtain ⟨h1, h2, h3, h4⟩ := lindblad_frame_set_fields m nf uh uds ud hU h
    refine ⟨?_, ?_, ?_⟩
    · rw [h1, h4]
    · rw [h2, h4]
    · rw [h3, h4]

/-- Witness for C1: setting the concrete frame `frame0` on the fresh models
`genW` and `lindW` establishes the storage invariant. -/
theorem frame_setter_reestablishes_basis_invariant_witness :
    (genW.frame_set (some frame0)).stored_in_frame_basis [] 0 ∧
    (lindW.frame_set (some frame0)).stored_in_frame_basis [] none 0 :=
  ⟨frame_setter_reestablishes_basis_invariant.1 1 genW [] 0 (some frame0)
      trivial
      ⟨rfl, by simp [genW, operator_into_frame_basis, frame_diag_matrix]⟩,
   frame_setter_reestablishes_basis_invariant.2 1 lindW [] none 0 (some frame0)
      trivial
      ⟨rfl, rfl, by simp [lindW, operator_into_frame_basis, frame_diag_matrix_i]⟩⟩

/-- Claim C2: setting the frame of a `GeneratorModel` or `LindbladModel`
(whose frame is initially unset, the state in which the user-supplied
operators and drift are stored as given) to an anti-Hermitian frame and then
immediately setting it back to `None` restores the stored operators and the
stored drift exactly. -/
theorem set_unset_frame_restores_operators_and_drift :
    (∀ (n : ℕ) (m : GeneratorModel n) (fd : FrameData n),
      m.frame = none → frame_unitary (some fd) →
        ((m.frame_set (some fd)).frame_set none).operators = m.operators ∧
        ((m.frame_set (some fd)).frame_set none).drift = m.drift) ∧
    (∀ (n : ℕ) (m : LindbladModel n) (fd : FrameData n),
      m.frame = none → frame_unitary (some fd) →
        ((m.frame_set (some fd)).frame_set none).hamiltonian_operators =
          m.hamiltonian_operators ∧
        ((m.frame_set (some fd)).frame_set none).dissipator_operators =
          m.dissipator_operators ∧
        ((m.frame_set (some fd)).frame_set none).drift = m.drift) := by
  constructor
  · intro n m fd hfm hU
    have h0 : m.stored_in_frame_basis m.operators m.drift := by
      constructor
      · rw [hfm, operator_into_frame_basis_none, List.map_id]
      · rw [hfm, operator_into_frame_basis_none, frame_diag_matrix_none]
        simp
    have hU0 : frame_unitary m.frame := by rw [hfm]; trivial
    obtain ⟨h1, h2, h3⟩ :=
      generator_frame_set_fields m (some fd) m.operators m.drift hU0 h0
    have hst : (m.frame_set (some fd)).stored_in_frame_basis
        m.operators m.drift := by
      constructor
      · rw [h1, h3]
      · rw [h2, h3]
    have hU1 : frame_unitary (m.frame_set (some fd)).frame := by
      rw [h3]; exact hU
    obtain ⟨g1, g2, g3⟩ := generator_frame_set_fields (m.frame_set (some fd))
      none m.operators m.drift hU1 hst
    constructor
    · rw [g1, operator_into_frame_basis_none, List.map_id]
    · rw [g2, operator_into_frame_basis_none, frame_diag_matrix_none]
      simp
  · intro n m fd hfm hU
    have h0 : m.stored_in_frame_basis m.hamiltonian_operators
        m.dissipator_operators m.drift := by
      refine ⟨?_, ?_, ?_⟩
      · rw [hfm, operator_into_frame_basis_none, List.map_id]
      · rw [hfm, operator_into_frame_basis_none]
        rcases m.dissipator_operators with _ | l
        · rfl
        · show some l = some (l.map id)
          rw [List.map_id]
      · rw [hfm, operator_into_frame_basis_none, frame_diag_matrix_i_none]
        simp
    have hU0 : frame_unitary m.frame := by rw [hfm]; trivial
    obtain ⟨h1, h2, h3, h4⟩ := lindblad_frame_set_fields m (some fd)
      m.hamiltonian_operators m.dissipator_operators m.drift hU0 h0
    have hst : (m.frame_set (some fd)).stored_in_frame_basis
        m.hamiltonian_operators m.dissipator_operators m.drift := by
      refine ⟨?_, ?_, ?_⟩
      · rw [h1, h4]
      · rw [h2, h4]
      · rw [h3, h4]
    have hU1 : frame_unitary (m.frame_set (some fd)).frame := by
      rw [h4]; exact hU
    obtain ⟨g1, g2, g3, g4⟩ := lindblad_frame_set_fields
      (m.frame_set (some fd)) none m.hamiltonian_operators
      m.dissipator_operators m.drift hU1 hst
    refine ⟨?_, ?_, ?_⟩
    · rw [g1, operator_into_frame_basis_none, List.map_id]
    · rw [g2, operator_into_frame_basis_none]
      rcases m.dissipator_operators with _ | l
      · rfl
      · show some (l.map id) = some l
        rw [List.map_id]
    · rw [g3, operator_into_frame_basis_none, frame_diag_matrix_i_none]
      simp

/-- Witness for C2 at the concrete models `genW` and `lindW` with the
concrete unitary frame `frame0`. -/
theorem set_unset_frame_restores_operators_and_drift_witness :
    (((genW.frame_set (some frame0)).frame_set none).operators =
        genW.operators ∧
      ((genW.frame_set (some frame0)).frame_set none).drift = genW.drift) ∧
    (((lindW.frame_set (some frame0)).frame_set none).hamiltonian_operators =
        lindW.hamiltonian_operators ∧
      ((lindW.frame_set (some frame0)).frame_set none).dissipator_operators =
        lindW.dissipator_operators ∧
      ((lindW.frame_set (some frame0)).frame_set none).drift = lindW.drift) :=
  ⟨set_unset_frame_restores_operators_and_drift.1 1 genW frame0 rfl
      (by simp [frame_unitary, frame0, dagger_eq_conjTranspose]),
   set_unset_frame_restores_operators_and_drift.2 1 lindW frame0 rfl
      (by simp [frame_unitary, frame0, dagger_eq_conjTranspose])⟩

/-- Claim C4 evaluated at a failing input: when the body raises (the
integration collaborator fails), `signal_assignment` does NOT restore the
pre-entry signals — the assigned signals are still installed after exit,
because the `@contextmanager` generator has no `try`/`finally` around its
`yield`, so the restoring statement after the `yield` is skipped when the
exception is thrown into the generator.  The solver `solver0` enters with
signals `[sig0]`, temporarily assigns `[sig1]`, the body raises, and the
model is left with `[sig1]`. -/
theorem signal_assignment_not_restored_on_exception :
    (solver0.signal_assignment_run (some [sig1])
        (.error "integration raised")).1 = .error "integration raised" ∧
    (solver0.signal_assignment_run (some [sig1])
        (.error "integration raised")).2.model.signals = some [sig1] ∧
    solver0.model.signals = some [sig0] ∧
    (solver0.signal_assignment_run (some [sig1])
        (.error "integration raised")).2.model.signals ≠
      solver0.model.signals := by
  refine ⟨rfl, rfl, rfl, ?_⟩
  intro h
  have h2 : (some [sig1] : Option (List Sig)) = some [sig0] := h
  have h3 : [sig1] = [sig0] := by injection h2
  have h4 : sig1 = sig0 := by injection h3
  have h5 : (1 : ℂ) = 0 := congrFun h4 0
  exact one_ne_zero h5

/-- On a `≤`-sorted list, `find?` returns a minimal element among those
satisfying the predicate. -/
lemma find_on_sorted_is_min (l : List ℕ) (p : ℕ → Bool)
    (hs : l.Sorted (· ≤ ·)) (d : ℕ) (h : l.find? p = some d) :
    ∀ e ∈ l, p e = true → d ≤ e := by
  induction l with
  | nil => cases h
  | cons a t ih =>
    cases hpa : p a
    · rw [List.find?_cons_of_neg _ (by simp [hpa])] at h
      intro e he hpe
      rcases List.mem_cons.mp he with rfl | het
      · rw [hpa] at hpe; cases hpe
      · exact ih (List.sorted_cons.mp hs).2 h e het hpe
    · rw [List.find?_cons_of_pos _ hpa] at h
      injection h with hd
      subst hd
      intro e he _
      rcases List.mem_cons.mp he with rfl | het
      · exact le_refl _
      · exact (List.sorted_cons.mp hs).1 e het

/-- Claim C9: for every solver and positive required duration `r`,
`_jit_shape` returns the smallest cached duration `d` with
`d * 0.2 < r ≤ d` (over the integers, `d * 0.2 < r` is `d < 5 * r`) and
leaves the cache alone when one exists; otherwise it returns
`round(1.5 * r)` (Python banker's rounding, `pyRound15`) and adds it to the
cache; and the cache only ever grows. -/
theorem jit_shape_bucket_policy :
    ∀ (n : ℕ) (s : Solver n) (r : ℕ), 0 < r →
      ((∃ d ∈ s.jit_cache, d < 5 * r ∧ r ≤ d) →
        ((s.jit_shape r).1.2 ∈ s.jit_cache ∧
          (s.jit_shape r).1.2 < 5 * r ∧ r ≤ (s.jit_shape r).1.2 ∧
          (∀ e ∈ s.jit_cache, e < 5 * r → r ≤ e → (s.jit_shape r).1.2 ≤ e) ∧
          (s.jit_shape r).2.jit_cache = s.jit_cache)) ∧
      ((¬ ∃ d ∈ s.jit_cache, d < 5 * r ∧ r ≤ d) →
        ((s.jit_shape r).1.2 = pyRound15 r ∧
          (s.jit_shape r).2.jit_cache = insert (pyRound15 r) s.jit_cache)) ∧
      s.jit_cache ⊆ (s.jit_shape r).2.jit_cache := by
  intro n s r hr
  rcases hf : (s.jit_cache.sort (· ≤ ·)).find? (fun duration =>
      decide (duration < 5 * r) && decide (r ≤ duration)) with _ | d
  · have hjs : s.jit_shape r = ((s.all_channels.length, pyRound15 r),
        { s with jit_cache := insert (pyRound15 r) s.jit_cache }) := by
      unfold Solver.jit_shape
      rw [hf]
    have hnone : ∀ e ∈ s.jit_cache, ¬ (e < 5 * r ∧ r ≤ e) := by
      intro e he
      have hne := List.find?_eq_none.mp hf e ((Finset.mem_sort _).mpr he)
      simpa using hne
    refine ⟨?_, ?_, ?_⟩
    · rintro ⟨d, hd, hc⟩
      exact absurd hc (hnone d hd)
    · intro _
      rw [hjs]
      exact ⟨rfl, rfl⟩
    · rw [hjs]
      exact Finset.subset_insert _ _
  · have hjs : s.jit_shape r = ((s.all_channels.length, d), s) := by
      unfold Solver.jit_shape
      rw [hf]
    have hdp := List.find?_some hf
    have hdc : d < 5 * r ∧ r ≤ d := by simpa using hdp
    have hdm : d ∈ s.jit_cache :=
      (Finset.mem_sort _).mp (List.mem_of_find?_eq_some hf)
    have hmin : ∀ e ∈ s.jit_cache, e < 5 * r → r ≤ e → d ≤ e := by
      intro e he h1 h2
      exact find_on_sorted_is_min _ _ (Finset.sort_sorted _ _) d hf e
        ((Finset.mem_sort _).mpr he) (by simp [h1, h2])
    refine ⟨?_, ?_, ?_⟩
    · intro _
      rw [hjs]
      exact ⟨hdm, hdc.1, hdc.2, hmin, rfl⟩
    · intro hno
      exact absurd ⟨d, hdm, hdc⟩ hno
    · rw [hjs]

/-- Witness for C9 at the concrete solver `solver0` (empty cache) and
required duration 2: no cached entry qualifies, so `round(1.5 * 2) = 3` is
returned and added. -/
theorem jit_shape_bucket_policy_witness :
    ((∃ d ∈ solver0.jit_cache, d < 5 * 2 ∧ 2 ≤ d) →
      ((solver0.jit_shape 2).1.2 ∈ solver0.jit_cache ∧
        (solver0.jit_shape 2).1.2 < 5 * 2 ∧ 2 ≤ (solver0.jit_shape 2).1.2 ∧
        (∀ e ∈ solver0.jit_cache, e < 5 * 2 → 2 ≤ e →
          (solver0.jit_shape 2).1.2 ≤ e) ∧
        (solver0.jit_shape 2).2.jit_cache = solver0.jit_cache)) ∧
    ((¬ ∃ d ∈ solver0.jit_cache, d < 5 * 2 ∧ 2 ≤ d) →
      ((solver0.jit_shape 2).1.2 = pyRound15 2 ∧
        (solver0.jit_shape 2).2.jit_cache =
          insert (pyRound15 2) solver0.jit_cache)) ∧
    solver0.jit_cache ⊆ (solver0.jit_shape 2).2.jit_cache :=
  jit_shape_bucket_policy 1 solver0 2 (by decide)

/-- Claim C10: a `DensityMatrix` or `QuantumChannel` initial state paired
with a `HamiltonianModel` is not integrated itself:
`validate_and_format_initial_state` substitutes the identity matrix of the
model's dimension, and `format_final_states` reconstructs each output from
the computed propagator `U` — as `U * y0 * U†` for a `DensityMatrix` and as
the superoperator induced by `U` (`conj U ⊗ U`) composed with `y0` for a
`QuantumChannel`. -/
theorem density_matrix_and_channel_propagator_reconstruction :
    ∀ (n : ℕ) (rho : Matrix (Fin n) (Fin n) ℂ)
      (S : Matrix (Fin n × Fin n) (Fin n × Fin n) ℂ)
      (Us : List (Matrix (Fin n) (Fin n) ℂ)),
      validate_and_format_initial_state (.densityMatrixObj rho) .hamiltonian =
        .ok (.mat 1, .mat rho, some .densityMatrix) ∧
      validate_and_format_initial_state (.quantumChannelObj S) .hamiltonian =
        .ok (.mat 1, .supermat S, some .superOp) ∧
      format_final_states (Us.map .mat) .hamiltonian (.mat rho)
          (some .densityMatrix) =
        Us.map (fun U => .mat (U * rho * dagger U)) ∧
      format_final_states (Us.map .mat) .hamiltonian (.supermat S)
          (some .superOp) =
        Us.map (fun U => .supermat (super_op_of_unitary U * S)) := by
  intro n rho S Us
  refine ⟨?_, ?_, ?_, ?_⟩
  · simp [validate_and_format_initial_state, initial_state_converter,
      StateArray.npshape]
  · simp [validate_and_format_initial_state, initial_state_converter,
      StateArray.npshape]
  · rw [format_final_states]
    rw [List.map_map]
    rfl
  · rw [format_final_states]
    rw [List.map_map]
    rfl
